import Mathlib

/-!
Verification development for the pinpoint-export-plugin repository.

The repository holds two TypeScript variants of the same PostHog → AWS
Pinpoint export plugin:

* `src/index.ts` (AWS SDK v3 client; embedded below in namespace `IndexTs`);
* `src/unnamed/part_000` (AWS SDK v2 client; embedded below in namespace
  `Part000`).

JavaScript values appearing in event properties are embedded as `JsValue`;
JavaScript objects are embedded as association lists in insertion order
(`JsObj`), with `objInsert` modelling property assignment (update in place,
append when fresh) and `objMerge a b` modelling the object literal
`{ ...a, ...b }` (fields of `b` win on common keys).  Sources of
nondeterminism (`Math.random`, `crypto.randomUUID`, `new Date().getTime()`)
are modelled by an externally supplied stream `env : Nat → String` of fresh
strings together with a counter threaded through each computation.
-/

/-- A JavaScript runtime value as it can appear in a plugin event:
`undefined`, `null`, booleans, numbers (modelled as integers; the values in
play are ids and screen dimensions), strings, arrays, and plain objects. -/
inductive JsValue where
  | undefined
  | null
  | bool (b : Bool)
  | num (n : Int)
  | str (s : String)
  | arr (elems : List JsValue)
  | obj (fields : List (String × JsValue))

/-- A JavaScript object, as an association list in insertion order.  The
objects built by this code never carry duplicate keys. -/
abbrev JsObj := List (String × JsValue)

/-- JavaScript truthiness: `undefined`, `null`, `false`, `0` and `""` are
falsy; every other value (including any array or object) is truthy. -/
def JsValue.truthy : JsValue → Bool
  | .undefined => false
  | .null => false
  | .bool b => b
  | .num n => n != 0
  | .str s => s != ""
  | .arr _ => true
  | .obj _ => true

mutual

/-- JavaScript `ToString` coercion (used when a value becomes an object key
or has `.toString()` called on it).  Arrays join their elements with `,`,
rendering `null` elements as the empty string; plain objects render as
`[object Object]`. -/
def JsValue.toStr : JsValue → String
  | .undefined => "undefined"
  | .null => "null"
  | .bool b => if b then "true" else "false"
  | .num n => toString n
  | .str s => s
  | .arr xs => String.intercalate "," (JsValue.arrElemStrs xs)
  | .obj _ => "[object Object]"

/-- Element strings of an array under JavaScript `Array.prototype.join`:
`null` (and `undefined`) elements become the empty string. -/
def JsValue.arrElemStrs : List JsValue → List String
  | [] => []
  | .undefined :: t => "" :: JsValue.arrElemStrs t
  | .null :: t => "" :: JsValue.arrElemStrs t
  | v :: t => JsValue.toStr v :: JsValue.arrElemStrs t

end

/-- Escape one character for a JSON string literal (the characters that
actually occur in the values in play). -/
def jsonEscapeChar (c : Char) : String :=
  if c = '"' then "\\\""
  else if c = '\\' then "\\\\"
  else if c = '\n' then "\\n"
  else if c = '\r' then "\\r"
  else if c = '\t' then "\\t"
  else String.singleton c

/-- Escape a string for inclusion in a JSON document. -/
def jsonEscape (s : String) : String :=
  String.join (s.toList.map jsonEscapeChar)

mutual

/-- JavaScript `JSON.stringify`: `none` models the `undefined` result
(`JSON.stringify(undefined)` is not a string).  Inside objects, fields whose
value serialises to `undefined` are dropped; inside arrays they render as
`null`. -/
def JsValue.stringify : JsValue → Option String
  | .undefined => none
  | .null => some "null"
  | .bool b => some (if b then "true" else "false")
  | .num n => some (toString n)
  | .str s => some ("\"" ++ jsonEscape s ++ "\"")
  | .arr xs => some ("[" ++ String.intercalate "," (JsValue.stringifyElems xs) ++ "]")
  | .obj fs => some ("\x7b" ++ String.intercalate "," (JsValue.stringifyFields fs) ++ "\x7d")

/-- Serialised elements of a JSON array (`undefined` renders as `null`). -/
def JsValue.stringifyElems : List JsValue → List String
  | [] => []
  | v :: t => (JsValue.stringify v).getD "null" :: JsValue.stringifyElems t

/-- Serialised fields of a JSON object (fields with `undefined` values are
dropped). -/
def JsValue.stringifyFields : List (String × JsValue) → List String
  | [] => []
  | (k, v) :: t =>
    match JsValue.stringify v with
    | none => JsValue.stringifyFields t
    | some s => ("\"" ++ jsonEscape k ++ "\":" ++ s) :: JsValue.stringifyFields t

end

/-- Property access `o[k]` on a JavaScript object: the stored value, or
`undefined` when the key is absent. -/
def objGet (l : JsObj) (k : String) : JsValue :=
  (List.lookup k l).getD .undefined

/-- Optional-chained property access `props?.[k]`: `undefined` when the
object itself is absent. -/
def lookupProp (props : Option JsObj) (k : String) : JsValue :=
  match props with
  | none => .undefined
  | some l => objGet l k

/-- JavaScript property assignment `o[k] = v` on an association list:
update in place when the key exists, append otherwise. -/
def objInsert {α : Type} : List (String × α) → String → α → List (String × α)
  | [], k, v => [(k, v)]
  | (k', v') :: t, k, v =>
    if k = k' then (k', v) :: t else (k', v') :: objInsert t k v

/-- The object literal `{ ...a, ...b }`: fields of `a` in order, then the
fields of `b`, with `b` winning on common keys. -/
def objMerge {α : Type} (a b : List (String × α)) : List (String × α) :=
  b.foldl (fun acc kv => objInsert acc kv.1 kv.2) a

/-- The fields of a `PluginEvent` (from `@posthog/plugin-scaffold`) that
this plugin reads.  `Option` models fields that may be `undefined` at
runtime.  The remaining scaffold fields (`ip`, `now`, `sent_at`, `team_id`,
`offset`) are never read by either variant and are treated as absent. -/
structure PluginEvent where
  event : String
  distinct_id : String
  properties : Option JsObj
  timestamp : Option String
  uuid : Option String
  site_url : Option String

/-- Wrap an optional string field as a JavaScript value. -/
def optStr : Option String → JsValue
  | some s => .str s
  | none => .undefined

/-- The event seen as the JavaScript object it is at runtime (used because
`part_000` passes the whole event where an object of properties is
expected). -/
def eventObj (e : PluginEvent) : JsObj :=
  [("event", .str e.event),
   ("distinct_id", .str e.distinct_id),
   ("properties", match e.properties with | some l => .obj l | none => .undefined),
   ("timestamp", optStr e.timestamp),
   ("uuid", optStr e.uuid),
   ("site_url", optStr e.site_url)]

/-- Optional-chained `v?.toString()`: `undefined` when the value is
`null`/`undefined`, its `ToString` coercion otherwise. -/
def optChainToStr (v : JsValue) : JsValue :=
  match v with
  | .undefined => .undefined
  | .null => .undefined
  | v => .str v.toStr

/-- The JavaScript `a || b` operator on values. -/
def jsOr (a b : JsValue) : JsValue :=
  if a.truthy then a else b

/-- Digit-prefix parser used by the `parseInt` model: value of the maximal
leading run of digits, or `none` when that run is empty. -/
def parseDigits (cs : List Char) (base : Nat) (isDig : Char → Bool) (val : Char → Nat) :
    Option Nat :=
  let ds := cs.takeWhile isDig
  if ds.isEmpty then none else some (ds.foldl (fun a c => a * base + val c) 0)

/-- Hexadecimal digit test for the `parseInt` model. -/
def isHexDig (c : Char) : Bool :=
  c.isDigit || ('a' ≤ c && c ≤ 'f') || ('A' ≤ c && c ≤ 'F')

/-- Hexadecimal digit value for the `parseInt` model. -/
def hexVal (c : Char) : Nat :=
  if c.isDigit then c.toNat - '0'.toNat
  else if 'a' ≤ c && c ≤ 'f' then c.toNat - 'a'.toNat + 10
  else c.toNat - 'A'.toNat + 10

/-- JavaScript `parseInt(s)` (radix argument omitted): skip leading
whitespace, read an optional sign, then a `0x`/`0X` hexadecimal prefix or a
maximal run of decimal digits; `none` models the `NaN` result. -/
def parseIntJs (s : String) : Option Int :=
  let cs := s.toList.dropWhile (fun c => c == ' ' || c == '\t' || c == '\n' || c == '\r')
  let signAndRest : Int × List Char :=
    match cs with
    | '-' :: t => (-1, t)
    | '+' :: t => (1, t)
    | _ => (1, cs)
  let mag : Option Nat :=
    match signAndRest.2 with
    | '0' :: 'x' :: t => parseDigits t 16 isHexDig hexVal
    | '0' :: 'X' :: t => parseDigits t 16 isHexDig hexVal
    | body => parseDigits body 10 Char.isDigit (fun c => c.toNat - '0'.toNat)
  mag.map (fun m => signAndRest.1 * m)

/-- The expression `parseInt(s) || 1`: `NaN` and `0` are falsy and give the
fallback `1`. -/
def parseIntOrOne (s : String) : Int :=
  match parseIntJs s with
  | none => 1
  | some v => if v = 0 then 1 else v

namespace IndexTs

/-- Source `src/index.ts` line 58: the size limit
`Math.max(1, Math.min(parseInt(config.uploadMegabytes) || 1, 100))`. -/
def uploadMegabytes (cfg : String) : Int :=
  max 1 (min (parseIntOrOne cfg) 100)

/-- Source `src/index.ts` line 59: the flush interval
`Math.max(1, Math.min(parseInt(config.uploadSeconds) || 1, 60))`. -/
def uploadSeconds (cfg : String) : Int :=
  max 1 (min (parseIntOrOne cfg) 60)

/-- The AWS Pinpoint `Event` record as built by `index.ts`'s `fillEvents`
(lines 165-196).  Attribute values are `JSON.stringify` of the property
value; `Metrics` copies the raw screen/viewport properties; `Timestamp` is
the raw `event.timestamp` with no fallback. -/
structure Event where
  AppPackageName : String
  AppTitle : String
  AppVersionCode : String
  Attributes : JsObj
  ClientSdkVersion : JsValue
  EventType : String
  Metrics : JsObj
  SdkName : JsValue
  Timestamp : JsValue

/-- One iteration of the reduce in `index.ts`'s `fillEvents` (lines
164-198): the accumulator is REPLACED by the singleton object keyed by
`event.distinct_id`. -/
def fillEventsStep (_acc : List (String × Event)) (e : PluginEvent) :
    List (String × Event) :=
  let attrs : JsObj :=
    ((e.properties.getD []).map Prod.fst).foldl
      (fun attributes k =>
        objMerge
          [(k, match (objGet (e.properties.getD []) k).stringify with
               | some s => .str s
               | none => .undefined)]
          attributes) []
  [(e.distinct_id,
    { AppPackageName := "string;"
      AppTitle := "string;"
      AppVersionCode := "string;"
      Attributes := attrs
      ClientSdkVersion := lookupProp e.properties "$lib_version"
      EventType := e.event
      Metrics :=
        [("screen_density", lookupProp e.properties "$screen_density"),
         ("screen_height", lookupProp e.properties "$screen_height"),
         ("screen_name", lookupProp e.properties "$screen_name"),
         ("screen_width", lookupProp e.properties "$screen_width"),
         ("viewport_height", lookupProp e.properties "$viewport_height"),
         ("viewport_width", lookupProp e.properties "$viewport_width")]
      SdkName := lookupProp e.properties "$lib"
      Timestamp := optStr e.timestamp })]

/-- Source `src/index.ts` lines 163-199, `fillEvents`. -/
def fillEvents (events : List PluginEvent) : List (String × Event) :=
  events.foldl fillEventsStep []

/-- Source `src/index.ts` lines 121-161, `fillEndpoint`: like `part_000`'s
`getEndpoint` but with raw property values (no `toString()` coercion and no
array wrapping in `Attributes`). -/
def fillEndpoint (e : PluginEvent) : JsValue :=
  if (lookupProp e.properties "$device_id").truthy then
    .obj
      [("Address", optStr e.site_url),
       ("Attributes", .obj
         [("screen_density", lookupProp e.properties "$screen_density"),
          ("screen_height", lookupProp e.properties "$screen_height"),
          ("screen_name", lookupProp e.properties "$screen_name"),
          ("screen_width", lookupProp e.properties "$screen_width"),
          ("viewport_height", lookupProp e.properties "$viewport_height"),
          ("viewport_width", lookupProp e.properties "$viewport_width")]),
       ("ChannelType", lookupProp e.properties "$lib"),
       ("Demographic", .obj
         [("AppVersion", lookupProp e.properties "$app_version"),
          ("Locale", lookupProp e.properties "$locale"),
          ("Make", jsOr (lookupProp e.properties "$device_manufacturer")
                        (lookupProp e.properties "$device_type")),
          ("Model", jsOr (lookupProp e.properties "$device_model")
                         (lookupProp e.properties "$os")),
          ("Platform", jsOr (lookupProp e.properties "$os_name")
                            (lookupProp e.properties "$browser")),
          ("PlatformVersion", jsOr (lookupProp e.properties "$os_version")
                                   (lookupProp e.properties "$browser_version")),
          ("Timezone", lookupProp e.properties "$geoip_time_zone")]),
       ("EffectiveDate", optStr e.timestamp),
       ("Location", .obj
         [("City", lookupProp e.properties "$geoip_city_name"),
          ("Country", lookupProp e.properties "$geoip_country_name"),
          ("Latitude", lookupProp e.properties "$geoip_latitude"),
          ("Longitude", lookupProp e.properties "$geoip_longitude"),
          ("PostalCode", lookupProp e.properties "$geoip_postal_code"),
          ("Region", lookupProp e.properties "$geoip_subdivision_1_code")]),
       ("Metrics", .obj []),
       ("RequestId", optStr e.uuid),
       ("User", .obj [("UserId", lookupProp e.properties "$user_id")])]
  else .obj []

/-- The AWS Pinpoint `EventsBatch` for the `index.ts` variant. -/
structure EventsBatch where
  Endpoint : JsValue
  Events : List (String × Event)

/-- One iteration of the reduce in `index.ts`'s `sendToPinpoint` (lines
107-114).  The body evaluates `batchEvents[batchKey].Events` with NO guard:
when `batchKey` is not yet present, `batchEvents[batchKey]` is `undefined`
and the member access throws a `TypeError`, modelled by `none`.  This
happens on the first event of every batch key. -/
def sendStep (env : Nat → String) (acc : List (String × EventsBatch) × Nat)
    (e : PluginEvent) : Option (List (String × EventsBatch) × Nat) :=
  let dv := lookupProp e.properties "$device_id"
  let bk : String × Nat := if dv.truthy then (dv.toStr, acc.2) else (env acc.2, acc.2 + 1)
  match List.lookup bk.1 acc.1 with
  | none => none
  | some b =>
    some (objInsert acc.1 bk.1 ⟨fillEndpoint e, objMerge (fillEvents [e]) b.Events⟩, bk.2)

/-- The `BatchItem` mapping built by `index.ts`'s `sendToPinpoint` reduce
(lines 107-114); `none` models the reduce throwing. -/
def batchItems (env : Nat → String) (events : List PluginEvent) (n : Nat) :
    Option (List (String × EventsBatch) × Nat) :=
  events.foldlM (fun acc e => sendStep env acc e) ([], n)

/-- The `PutEventsCommand` assembled by `index.ts`'s `sendToPinpoint`. -/
structure Command where
  ApplicationId : String
  BatchItem : List (String × EventsBatch)

/-- Source `src/index.ts` lines 102-119, `sendToPinpoint`: build the
command, then call `global.pinpoint.send(command)`.  `none` models the
function throwing before reaching the `send` call. -/
def sendToPinpoint (env : Nat → String) (appId : String) (events : List PluginEvent)
    (n : Nat) : Option (Command × Nat) :=
  (batchItems env events n).map (fun b => ((⟨appId, b.1⟩ : Command), b.2))

/-- Source `src/index.ts` lines 73-75, the buffer's `onFlush` callback: it
calls `sendToPinpoint` unconditionally.  The result is the list of
`send` calls made to the Pinpoint client, paired with whether the callback
completed without throwing. -/
def onFlushRun (env : Nat → String) (appId : String) (events : List PluginEvent)
    (n : Nat) : List Command × Bool :=
  match sendToPinpoint env appId events n with
  | some (c, _) => ([c], true)
  | none => ([], false)

end IndexTs

namespace Part000

/-- Source `src/unnamed/part_000` line 60: the size limit
`Math.max(1, Math.min(parseInt(config.uploadKilobytes) || 1, 100))`. -/
def uploadKilobytes (cfg : String) : Int :=
  max 1 (min (parseIntOrOne cfg) 100)

/-- Source `src/unnamed/part_000` line 61: the flush interval
`Math.max(1, Math.min(parseInt(config.uploadSeconds) || 1, 60))`. -/
def uploadSeconds (cfg : String) : Int :=
  max 1 (min (parseIntOrOne cfg) 60)

/-- Source `src/unnamed/part_000` lines 232-240, `getAttribute`: numbers and
booleans become their string representation, strings pass through, and any
other value is `JSON.stringify`d — which yields `undefined` (here
`JsValue.undefined`) when the looked-up value is itself `undefined`.  The
parameter is declared `properties: Properties` in the source, but the
caller at line 204 passes the whole event. -/
def getAttribute (properties : JsObj) (key : String) : JsValue :=
  match objGet properties key with
  | .num n => .str (JsValue.toStr (.num n))
  | .bool b => .str (JsValue.toStr (.bool b))
  | .str s => .str s
  | v =>
    match v.stringify with
    | some s => .str s
    | none => .undefined

/-- The AWS Pinpoint `Event` record as built by `part_000`'s `getEvents`
(lines 198-221).  `Metrics` is the empty object literal in this variant. -/
structure Event where
  AppPackageName : String
  AppTitle : String
  AppVersionCode : String
  Attributes : JsObj
  ClientSdkVersion : JsValue
  EventType : String
  Metrics : JsObj
  SdkName : JsValue
  Timestamp : String

/-- One iteration of the reduce in `part_000`'s `getEvents` (lines
195-229): compute the event key (`event.uuid ?? randomUUID()`), build the
Pinpoint event record, and REPLACE the accumulator with the singleton
object `{ [eventKey]: pinpointEvent }`.  The accumulated map `acc.1` is
discarded; only the counter `acc.2` into the entropy stream is used. -/
def getEventsStep (env : Nat → String) (acc : List (String × Event) × Nat)
    (e : PluginEvent) : List (String × Event) × Nat :=
  let key : String × Nat :=
    match e.uuid with
    | some u => (u, acc.2)
    | none => (env acc.2, acc.2 + 1)
  let attrs : JsObj :=
    ((e.properties.getD []).map Prod.fst).foldl
      (fun attributes k => objMerge [(k, getAttribute (eventObj e) k)] attributes) []
  let tsn : String × Nat :=
    match e.timestamp with
    | some t => if t = "" then (env key.2, key.2 + 1) else (t, key.2)
    | none => (env key.2, key.2 + 1)
  let record : Event :=
    { AppPackageName := "string;"
      AppTitle := "string;"
      AppVersionCode := "string;"
      Attributes := attrs
      ClientSdkVersion := lookupProp e.properties "$lib_version"
      EventType := e.event
      Metrics := []
      SdkName := lookupProp e.properties "$lib"
      Timestamp := tsn.1 }
  ([(key.1, record)], tsn.2)

/-- Source `src/unnamed/part_000` lines 194-230, `getEvents`: a reduce of
`getEventsStep` starting from the empty object. -/
def getEvents (env : Nat → String) (events : List PluginEvent) (n : Nat) :
    List (String × Event) × Nat :=
  events.foldl (getEventsStep env) ([], n)

/-- Source `src/unnamed/part_000` lines 151-192, `getEndpoint`: an empty
object unless the event has a truthy `$device_id`, otherwise the endpoint
record with each field copied (best effort) from the event. -/
def getEndpoint (e : PluginEvent) : JsValue :=
  if (lookupProp e.properties "$device_id").truthy then
    .obj
      [("Address", optStr e.site_url),
       ("Attributes", .obj
         [("screen_density",
           .arr [jsOr (optChainToStr (lookupProp e.properties "$screen_density")) (.str "")]),
          ("screen_height",
           .arr [jsOr (optChainToStr (lookupProp e.properties "$screen_height")) (.str "")]),
          ("screen_name",
           .arr [jsOr (optChainToStr (lookupProp e.properties "$screen_name")) (.str "")]),
          ("screen_width",
           .arr [jsOr (optChainToStr (lookupProp e.properties "$screen_width")) (.str "")]),
          ("viewport_height",
           .arr [jsOr (optChainToStr (lookupProp e.properties "$viewport_height")) (.str "")]),
          ("viewport_width",
           .arr [jsOr (optChainToStr (lookupProp e.properties "$viewport_width")) (.str "")])]),
       ("ChannelType", lookupProp e.properties "$lib"),
       ("Demographic", .obj
         [("AppVersion", lookupProp e.properties "$app_version"),
          ("Locale", lookupProp e.properties "$locale"),
          ("Make", jsOr (lookupProp e.properties "$device_manufacturer")
                        (lookupProp e.properties "$device_type")),
          ("Model", jsOr (lookupProp e.properties "$device_model")
                         (lookupProp e.properties "$os")),
          ("Platform", jsOr (lookupProp e.properties "$os_name")
                            (lookupProp e.properties "$browser")),
          ("PlatformVersion",
           jsOr (optChainToStr (lookupProp e.properties "$os_version"))
                (optChainToStr (lookupProp e.properties "$browser_version"))),
          ("Timezone", lookupProp e.properties "$geoip_time_zone")]),
       ("EffectiveDate", optStr e.timestamp),
       ("Location", .obj
         [("City", lookupProp e.properties "$geoip_city_name"),
          ("Country", lookupProp e.properties "$geoip_country_name"),
          ("Latitude", lookupProp e.properties "$geoip_latitude"),
          ("Longitude", lookupProp e.properties "$geoip_longitude"),
          ("PostalCode", lookupProp e.properties "$geoip_postal_code"),
          ("Region", lookupProp e.properties "$geoip_subdivision_1_code")]),
       ("Metrics", .obj []),
       ("RequestId", optStr e.uuid),
       ("User", .obj [("UserId", lookupProp e.properties "$user_id")])]
  else .obj []

/-- The AWS Pinpoint `EventsBatch`: one endpoint record plus the mapping
from event keys to event records. -/
structure EventsBatch where
  Endpoint : JsValue
  Events : List (String × Event)

/-- One iteration of the reduce in `part_000`'s `sendToPinpoint` (lines
114-126): compute the batch key (`e.properties?.$device_id ||` a random
string, coerced to a string when used as an object key), build the
normalized events for `[e]`, merge the existing batch item's events behind
them (`{ ...pinpointEvents, ...batchEvents[batchKey].Events }` — the
EXISTING entries win on common event keys), and overwrite the batch item
with the current event's endpoint. -/
def sendStep (env : Nat → String) (acc : List (String × EventsBatch) × Nat)
    (e : PluginEvent) : List (String × EventsBatch) × Nat :=
  let dv := lookupProp e.properties "$device_id"
  let bk : String × Nat := if dv.truthy then (dv.toStr, acc.2) else (env acc.2, acc.2 + 1)
  let ge := getEvents env [e] bk.2
  let pinpointEvents : List (String × Event) :=
    match List.lookup bk.1 acc.1 with
    | some b => objMerge ge.1 b.Events
    | none => ge.1
  (objInsert acc.1 bk.1 ⟨getEndpoint e, pinpointEvents⟩, ge.2)

/-- The `BatchItem` mapping built by `part_000`'s `sendToPinpoint` reduce
(lines 114-126), starting from the empty object. -/
def batchItems (env : Nat → String) (events : List PluginEvent) (n : Nat) :
    List (String × EventsBatch) × Nat :=
  events.foldl (sendStep env) ([], n)

/-- The `putEvents` command assembled by `part_000`'s `sendToPinpoint`
(lines 111-128). -/
structure Command where
  ApplicationId : String
  BatchItem : List (String × EventsBatch)

/-- Source `src/unnamed/part_000` lines 109-149, `sendToPinpoint`: build
the command and hand it to `pinpoint.putEvents`.  The construction itself
is total — it cannot throw. -/
def sendToPinpoint (env : Nat → String) (appId : String) (events : List PluginEvent)
    (n : Nat) : Command × Nat :=
  ((⟨appId, (batchItems env events n).1⟩ : Command), (batchItems env events n).2)

/-- A log line produced by the `putEvents` completion callback. -/
inductive LogEntry where
  | errorLine (msg : String) (failed : Command)
  | infoLine (msg : String)

/-- Source `src/unnamed/part_000` lines 129-148: the `putEvents` callback.
An error is only logged (together with the serialised command); the two
info lines are logged unconditionally.  Nothing is thrown and nothing is
returned to the dispatcher's caller. -/
def putEventsCallback (err : Option String) (dataJson : String) (cmd : Command)
    (numEvents : Nat) (appId : String) : List LogEntry :=
  (match err with
   | some m => [.errorLine ("Error sending events to Pinpoint: " ++ m) cmd]
   | none => []) ++
  [.infoLine ("Uploaded " ++ toString numEvents ++ " event" ++
      (if numEvents = 1 then "" else "s") ++ " to application " ++ appId),
   .infoLine ("Response: " ++ dataJson)]

/-- Source `src/unnamed/part_000` lines 74-79, the buffer's `onFlush`
callback: `sendToPinpoint` runs only when the flushed list is non-empty.
The result lists the submissions handed to the Pinpoint client. -/
def onFlushCalls (env : Nat → String) (appId : String) (events : List PluginEvent)
    (n : Nat) : List Command :=
  if events.length != 0 then [(sendToPinpoint env appId events n).1] else []

end Part000

/-! ### Association-list lemmas shared by the claim proofs -/

theorem lookup_objInsert {α : Type} (l : List (String × α)) (k : String) (v : α)
    (k' : String) :
    List.lookup k' (objInsert l k v) = if k' = k then some v else List.lookup k' l := by
  induction l with
  | nil =>
    simp only [objInsert, List.lookup]
    rcases eq_or_ne k' k with h | h
    · simp [h]
    · simp [h, beq_false_of_ne h]
  | cons kv t ih =>
    obtain ⟨k0, v0⟩ := kv
    simp only [objInsert]
    rcases eq_or_ne k k0 with hk | hk
    · subst hk
      rcases eq_or_ne k' k with h | h
      · simp [h, List.lookup]
      · simp [h, List.lookup, beq_false_of_ne h]
    · rw [if_neg hk]
      rcases eq_or_ne k' k0 with h | h
      · subst h
        simp [List.lookup, if_neg (Ne.symm hk)]
      · simp [List.lookup, beq_false_of_ne h, ih]

theorem keys_objInsert {α : Type} (l : List (String × α)) (k : String) (v : α) :
    (objInsert l k v).map Prod.fst =
      if k ∈ l.map Prod.fst then l.map Prod.fst else l.map Prod.fst ++ [k] := by
  induction l with
  | nil => simp [objInsert]
  | cons kv t ih =>
    obtain ⟨k0, v0⟩ := kv
    simp only [objInsert]
    rcases eq_or_ne k k0 with hk | hk
    · subst hk
      simp
    · simp only [if_neg hk, List.map_cons, List.mem_cons]
      rcases Decidable.em (k ∈ t.map Prod.fst) with h | h
      · simp [h, ih, Ne.symm, hk]
      · have : ¬(k = k0 ∨ k ∈ t.map Prod.fst) := by
          rintro (h1 | h1)
          · exact hk h1
          · exact h h1
        simp [this, ih, h, hk]

theorem mem_keys_objInsert {α : Type} (l : List (String × α)) (k : String) (v : α) :
    k ∈ (objInsert l k v).map Prod.fst := by
  rw [keys_objInsert]
  split
  · assumption
  · simp

theorem objInsert_of_not_mem {α : Type} {l : List (String × α)} {k : String} (v : α)
    (h : k ∉ l.map Prod.fst) : objInsert l k v = l ++ [(k, v)] := by
  induction l with
  | nil => simp [objInsert]
  | cons kv t ih =>
    obtain ⟨k0, v0⟩ := kv
    simp only [List.map_cons, List.mem_cons] at h
    push_neg at h
    simp only [objInsert, if_neg h.1, List.cons_append, List.cons.injEq, true_and]
    exact ih h.2

theorem lookup_eq_none_of_not_mem {α : Type} {l : List (String × α)} {k : String}
    (h : k ∉ l.map Prod.fst) : List.lookup k l = none := by
  induction l with
  | nil => simp
  | cons kv t ih =>
    obtain ⟨k0, v0⟩ := kv
    simp only [List.map_cons, List.mem_cons] at h
    push_neg at h
    simp [List.lookup, beq_false_of_ne h.1, ih h.2]

theorem objMerge_of_disjoint {α : Type} :
    ∀ (b a : List (String × α)), (∀ p ∈ b, p.1 ∉ a.map Prod.fst) →
      (b.map Prod.fst).Nodup → objMerge a b = a ++ b
  | [], a, _, _ => by simp [objMerge]
  | (k, v) :: t, a, hdis, hnod => by
    have hk : k ∉ a.map Prod.fst := hdis (k, v) (List.mem_cons_self _ _)
    have hnod' : (t.map Prod.fst).Nodup := by
      simpa using hnod.of_cons
    have hknott : k ∉ t.map Prod.fst := by
      simp only [List.map_cons, List.nodup_cons] at hnod
      exact hnod.1
    have hdis' : ∀ p ∈ t, p.1 ∉ (a ++ [(k, v)]).map Prod.fst := by
      intro p hp
      simp only [List.map_append, List.mem_append, List.map_cons, List.map_nil,
        List.mem_singleton]
      rintro (h | h)
      · exact hdis p (List.mem_cons_of_mem _ hp) h
      · exact hknott (h ▸ List.mem_map_of_mem Prod.fst hp)
    calc objMerge a ((k, v) :: t)
        = objMerge (objInsert a k v) t := by simp [objMerge]
      _ = objMerge (a ++ [(k, v)]) t := by rw [objInsert_of_not_mem v hk]
      _ = (a ++ [(k, v)]) ++ t := objMerge_of_disjoint t (a ++ [(k, v)]) hdis' hnod'
      _ = a ++ (k, v) :: t := by simp

theorem lookup_objMerge {α : Type} :
    ∀ (b a : List (String × α)) (k : String), (b.map Prod.fst).Nodup →
      List.lookup k (objMerge a b) = (List.lookup k b).orElse (fun _ => List.lookup k a)
  | [], a, k, _ => by simp [objMerge]
  | (k0, v0) :: t, a, k, hnod => by
    have hnod' : (t.map Prod.fst).Nodup := by simpa using hnod.of_cons
    have hk0 : k0 ∉ t.map Prod.fst := by
      simp only [List.map_cons, List.nodup_cons] at hnod
      exact hnod.1
    have step : objMerge a ((k0, v0) :: t) = objMerge (objInsert a k0 v0) t := by
      simp [objMerge]
    rw [step, lookup_objMerge t (objInsert a k0 v0) k hnod', lookup_objInsert]
    rcases eq_or_ne k k0 with h | h
    · subst h
      rw [lookup_eq_none_of_not_mem hk0]
      simp [List.lookup]
    · simp [List.lookup, beq_false_of_ne h, if_neg h]

/-! ### Lemmas about the part_000 normalizer and dispatcher fold -/

namespace Part000

theorem getEvents_single_key (env : Nat → String) (e : PluginEvent) (n : Nat) :
    ((getEvents env [e] n).1).map Prod.fst = [e.uuid.getD (env n)] := by
  cases h : e.uuid <;> simp [getEvents, getEventsStep, h]

theorem getEvents_single_length (env : Nat → String) (e : PluginEvent) (n : Nat) :
    (getEvents env [e] n).1.length = 1 := rfl

/-- The event record produced for an event that carries a uuid and a
non-empty timestamp: no entropy is consumed and nothing depends on the
counter. -/
def identRecord (e : PluginEvent) (t : String) : Event :=
  { AppPackageName := "string;"
    AppTitle := "string;"
    AppVersionCode := "string;"
    Attributes := ((e.properties.getD []).map Prod.fst).foldl
      (fun attributes k => objMerge [(k, getAttribute (eventObj e) k)] attributes) []
    ClientSdkVersion := lookupProp e.properties "$lib_version"
    EventType := e.event
    Metrics := []
    SdkName := lookupProp e.properties "$lib"
    Timestamp := t }

theorem getEvents_of_ident (env : Nat → String) (n : Nat) (e : PluginEvent) (u t : String)
    (hu : e.uuid = some u) (ht : e.timestamp = some t) (hts : t ≠ "") :
    getEvents env [e] n = ([(u, identRecord e t)], n) := by
  simp [getEvents, getEventsStep, hu, ht, hts, identRecord]

theorem sendStep_truthy (env : Nat → String) (acc : List (String × EventsBatch)) (n : Nat)
    (e : PluginEvent) (h : (lookupProp e.properties "$device_id").truthy = true) :
    sendStep env (acc, n) e =
      (objInsert acc ((lookupProp e.properties "$device_id").toStr)
        ⟨getEndpoint e,
         match List.lookup ((lookupProp e.properties "$device_id").toStr) acc with
         | some b => objMerge (getEvents env [e] n).1 b.Events
         | none => (getEvents env [e] n).1⟩,
       (getEvents env [e] n).2) := by
  simp [sendStep, h]

theorem sendStep_device (env : Nat → String) (acc : List (String × EventsBatch)) (n : Nat)
    (e : PluginEvent) (d : String)
    (hd : lookupProp e.properties "$device_id" = JsValue.str d) (hne : d ≠ "") :
    sendStep env (acc, n) e =
      (objInsert acc d
        ⟨getEndpoint e,
         match List.lookup d acc with
         | some b => objMerge (getEvents env [e] n).1 b.Events
         | none => (getEvents env [e] n).1⟩,
       (getEvents env [e] n).2) := by
  have htr : (lookupProp e.properties "$device_id").truthy = true := by
    rw [hd]; simp [JsValue.truthy, hne]
  have hts : (lookupProp e.properties "$device_id").toStr = d := by
    rw [hd]; simp [JsValue.toStr]
  rw [sendStep_truthy env acc n e htr, hts]

theorem fold_same_device (env : Nat → String) {d : String} (hne : d ≠ "") :
    ∀ (es : List PluginEvent) (acc : List (String × EventsBatch)) (n : Nat),
      (∀ e ∈ es, lookupProp e.properties "$device_id" = JsValue.str d) →
      ∀ (h : es ≠ []),
      ∃ b, List.lookup d (es.foldl (sendStep env) (acc, n)).1 = some b ∧
        b.Endpoint = getEndpoint (es.getLast h) ∧
        (es.foldl (sendStep env) (acc, n)).1.map Prod.fst =
          (if d ∈ acc.map Prod.fst then acc.map Prod.fst else acc.map Prod.fst ++ [d])
  | [], _, _, _, h => absurd rfl h
  | e :: t, acc, n, hd, h => by
    rw [List.foldl_cons, sendStep_device env acc n e d (hd e (by simp)) hne]
    rcases eq_or_ne t [] with rfl | ht
    · refine ⟨⟨getEndpoint e,
          match List.lookup d acc with
          | some b0 => objMerge (getEvents env [e] n).1 b0.Events
          | none => (getEvents env [e] n).1⟩, ?_, ?_, ?_⟩
      · rw [List.foldl_nil, lookup_objInsert]
        exact if_pos rfl
      · rfl
      · rw [List.foldl_nil]
        exact keys_objInsert acc d _
    · have hd' : ∀ e' ∈ t, lookupProp e'.properties "$device_id" = JsValue.str d :=
        fun e' he' => hd e' (List.mem_cons_of_mem _ he')
      obtain ⟨b, hb, hbe, hkeys⟩ := fold_same_device env hne t
        (objInsert acc d
          ⟨getEndpoint e,
           match List.lookup d acc with
           | some b0 => objMerge (getEvents env [e] n).1 b0.Events
           | none => (getEvents env [e] n).1⟩)
        ((getEvents env [e] n).2) hd' ht
      refine ⟨b, hb, ?_, ?_⟩
      · rw [hbe]
        exact congrArg getEndpoint (List.getLast_cons ht).symm
      · rw [hkeys, if_pos (mem_keys_objInsert acc d _), keys_objInsert]

theorem sendStep_truthy_fresh (env : Nat → String) (acc : List (String × EventsBatch))
    (n : Nat) (e : PluginEvent)
    (h : (lookupProp e.properties "$device_id").truthy = true)
    (hnone : List.lookup ((lookupProp e.properties "$device_id").toStr) acc = none) :
    sendStep env (acc, n) e =
      (objInsert acc ((lookupProp e.properties "$device_id").toStr)
        ⟨getEndpoint e, (getEvents env [e] n).1⟩, (getEvents env [e] n).2) := by
  rw [sendStep_truthy env acc n e h, hnone]

theorem sendStep_device_found (env : Nat → String) (acc : List (String × EventsBatch))
    (n : Nat) (e : PluginEvent) (d : String) (b : EventsBatch)
    (hd : lookupProp e.properties "$device_id" = JsValue.str d) (hne : d ≠ "")
    (hsome : List.lookup d acc = some b) :
    sendStep env (acc, n) e =
      (objInsert acc d ⟨getEndpoint e, objMerge (getEvents env [e] n).1 b.Events⟩,
       (getEvents env [e] n).2) := by
  rw [sendStep_device env acc n e d hd hne, hsome]

theorem sendStep_device_fresh (env : Nat → String) (acc : List (String × EventsBatch))
    (n : Nat) (e : PluginEvent) (d : String)
    (hd : lookupProp e.properties "$device_id" = JsValue.str d) (hne : d ≠ "")
    (hnone : List.lookup d acc = none) :
    sendStep env (acc, n) e =
      (objInsert acc d ⟨getEndpoint e, (getEvents env [e] n).1⟩,
       (getEvents env [e] n).2) := by
  rw [sendStep_device env acc n e d hd hne, hnone]

theorem fold_distinct_keys (env : Nat → String) :
    ∀ (es : List PluginEvent) (acc : List (String × EventsBatch)) (n : Nat),
      (∀ e ∈ es, (lookupProp e.properties "$device_id").truthy = true) →
      ((es.map (fun e => (lookupProp e.properties "$device_id").toStr)).Nodup) →
      (∀ e ∈ es, (lookupProp e.properties "$device_id").toStr ∉ acc.map Prod.fst) →
      (es.foldl (sendStep env) (acc, n)).1.map Prod.fst =
        acc.map Prod.fst ++ es.map (fun e => (lookupProp e.properties "$device_id").toStr)
  | [], acc, n, _, _, _ => by simp
  | e :: t, acc, n, htr, hnod, hfresh => by
    have hk := hfresh e (List.mem_cons_self e t)
    rw [List.map_cons, List.nodup_cons] at hnod
    obtain ⟨hknott, hnodt⟩ := hnod
    have hfresh' : ∀ e' ∈ t, (lookupProp e'.properties "$device_id").toStr ∉
        (acc ++ [((lookupProp e.properties "$device_id").toStr,
          (⟨getEndpoint e, (getEvents env [e] n).1⟩ : EventsBatch))]).map Prod.fst := by
      intro e' he'
      simp only [List.map_append, List.mem_append, List.map_cons, List.map_nil,
        List.mem_singleton]
      rintro (hmem | heq)
      · exact hfresh e' (List.mem_cons_of_mem _ he') hmem
      · exact hknott (heq ▸ List.mem_map_of_mem _ he')
    rw [List.foldl_cons,
      sendStep_truthy_fresh env acc n e (htr e (List.mem_cons_self e t))
        (lookup_eq_none_of_not_mem hk),
      objInsert_of_not_mem _ hk,
      fold_distinct_keys env t _ ((getEvents env [e] n).2)
        (fun e' he' => htr e' (List.mem_cons_of_mem _ he')) hnodt hfresh']
    simp

theorem fold_same_device_events (env : Nat → String) {d : String} (hne : d ≠ "") :
    ∀ (es : List PluginEvent) (acc : List (String × EventsBatch)) (n : Nat) (b0 : EventsBatch),
      (∀ e ∈ es, lookupProp e.properties "$device_id" = JsValue.str d) →
      (∀ e ∈ es, e.uuid.isSome) →
      (es.filterMap PluginEvent.uuid).Nodup →
      List.lookup d acc = some b0 →
      ((b0.Events.map Prod.fst).Nodup) →
      (∀ u ∈ es.filterMap PluginEvent.uuid, u ∉ b0.Events.map Prod.fst) →
      ∃ b, List.lookup d (es.foldl (sendStep env) (acc, n)).1 = some b ∧
        b.Events.map Prod.fst =
          (es.filterMap PluginEvent.uuid).reverse ++ b0.Events.map Prod.fst
  | [], acc, n, b0, _, _, _, hb, _, _ => ⟨b0, by simpa using hb, by simp⟩
  | e :: t, acc, n, b0, hd, hu, hnodup, hb, hbn, hdisj => by
    obtain ⟨u, hu_e⟩ := Option.isSome_iff_exists.mp (hu e (List.mem_cons_self e t))
    have hfm : (e :: t).filterMap PluginEvent.uuid = u :: t.filterMap PluginEvent.uuid := by
      simp [List.filterMap_cons, hu_e]
    have hkeys1 : ((getEvents env [e] n).1).map Prod.fst = [u] := by
      rw [getEvents_single_key]; simp [hu_e]
    have hu_not_b0 : u ∉ b0.Events.map Prod.fst := by
      apply hdisj; rw [hfm]; exact List.mem_cons_self _ _
    have hmerge : objMerge (getEvents env [e] n).1 b0.Events =
        (getEvents env [e] n).1 ++ b0.Events := by
      apply objMerge_of_disjoint
      · intro p hp
        rw [hkeys1, List.mem_singleton]
        intro hpu
        exact hu_not_b0 (hpu ▸ List.mem_map_of_mem Prod.fst hp)
      · exact hbn
    rw [List.foldl_cons,
      sendStep_device_found env acc n e d b0 (hd e (List.mem_cons_self e t)) hne hb, hmerge]
    have hnodup_t : (t.filterMap PluginEvent.uuid).Nodup := by
      rw [hfm] at hnodup; exact hnodup.of_cons
    have hu_notin_t : u ∉ t.filterMap PluginEvent.uuid := by
      rw [hfm, List.nodup_cons] at hnodup; exact hnodup.1
    have hb1 : List.lookup d (objInsert acc d
        (⟨getEndpoint e, (getEvents env [e] n).1 ++ b0.Events⟩ : EventsBatch)) =
        some ⟨getEndpoint e, (getEvents env [e] n).1 ++ b0.Events⟩ := by
      rw [lookup_objInsert]; exact if_pos rfl
    have hbn1 : ((((getEvents env [e] n).1 ++ b0.Events)).map Prod.fst).Nodup := by
      rw [List.map_append, hkeys1]
      simp only [List.singleton_append, List.nodup_cons]
      exact ⟨hu_not_b0, hbn⟩
    have hdisj1 : ∀ u' ∈ t.filterMap PluginEvent.uuid,
        u' ∉ ((getEvents env [e] n).1 ++ b0.Events).map Prod.fst := by
      intro u' hu'
      rw [List.map_append, hkeys1]
      simp only [List.singleton_append, List.mem_cons, not_or]
      refine ⟨?_, ?_⟩
      · rintro rfl
        exact hu_notin_t hu'
      · exact hdisj u' (by rw [hfm]; exact List.mem_cons_of_mem _ hu')
    obtain ⟨b, hbfin, hkeysfin⟩ := fold_same_device_events env hne t _ ((getEvents env [e] n).2)
      ⟨getEndpoint e, (getEvents env [e] n).1 ++ b0.Events⟩
      (fun e' he' => hd e' (List.mem_cons_of_mem _ he'))
      (fun e' he' => hu e' (List.mem_cons_of_mem _ he'))
      hnodup_t hb1 hbn1 hdisj1
    refine ⟨b, hbfin, ?_⟩
    rw [hkeysfin, hfm]
    simp [hkeys1, List.reverse_cons, List.append_assoc]

theorem getEventsStep_fst_irrel (env : Nat → String) (a b : List (String × Event))
    (m : Nat) (e : PluginEvent) :
    getEventsStep env (a, m) e = getEventsStep env (b, m) e := rfl

theorem foldl_getEventsStep_irrel (env : Nat → String) (t : List PluginEvent)
    (ht : t ≠ []) (a b : List (String × Event)) (m : Nat) :
    t.foldl (getEventsStep env) (a, m) = t.foldl (getEventsStep env) (b, m) := by
  cases t with
  | nil => exact absurd rfl ht
  | cons e t' =>
    rw [List.foldl_cons, List.foldl_cons, getEventsStep_fst_irrel env a b m e]

theorem getEvents_eq_last (env : Nat → String) :
    ∀ (es : List PluginEvent) (n : Nat) (e : PluginEvent),
      es.getLast? = some e →
      ∃ m, (getEvents env es n).1 = (getEvents env [e] m).1
  | [], _, _, h => by simp at h
  | [e0], n, e, h => by
    simp only [List.getLast?_singleton, Option.some.injEq] at h
    exact ⟨n, by rw [h]⟩
  | e0 :: e1 :: t, n, e, h => by
    rw [List.getLast?_cons_cons] at h
    obtain ⟨m, hm⟩ := getEvents_eq_last env (e1 :: t) ((getEventsStep env ([], n) e0).2) e h
    refine ⟨m, ?_⟩
    calc ((e0 :: e1 :: t).foldl (getEventsStep env) ([], n)).1
        = ((e1 :: t).foldl (getEventsStep env) (getEventsStep env ([], n) e0)).1 := by
          rw [List.foldl_cons]
      _ = ((e1 :: t).foldl (getEventsStep env)
            ([], (getEventsStep env ([], n) e0).2)).1 :=
          congrArg Prod.fst
            (foldl_getEventsStep_irrel env (e1 :: t) (by simp)
              (getEventsStep env ([], n) e0).1 [] (getEventsStep env ([], n) e0).2)
      _ = (getEvents env [e] m).1 := hm

theorem fold_ident_det (env1 env2 : Nat → String) :
    ∀ (es : List PluginEvent) (acc : List (String × EventsBatch)) (n1 n2 : Nat),
      (∀ e ∈ es, (∃ d, lookupProp e.properties "$device_id" = JsValue.str d ∧ d ≠ "") ∧
        (∃ u, e.uuid = some u) ∧ ∃ t, e.timestamp = some t ∧ t ≠ "") →
      (es.foldl (sendStep env1) (acc, n1)).1 = (es.foldl (sendStep env2) (acc, n2)).1
  | [], _, _, _, _ => rfl
  | e :: t, acc, n1, n2, h => by
    obtain ⟨⟨d, hd, hdne⟩, ⟨u, hu⟩, ⟨ts, hts, htsne⟩⟩ := h e (List.mem_cons_self e t)
    rw [List.foldl_cons, List.foldl_cons,
      sendStep_device env1 acc n1 e d hd hdne,
      sendStep_device env2 acc n2 e d hd hdne,
      getEvents_of_ident env1 n1 e u ts hu hts htsne,
      getEvents_of_ident env2 n2 e u ts hu hts htsne]
    exact fold_ident_det env1 env2 t _ _ _ (fun e' he' => h e' (List.mem_cons_of_mem _ he'))

end Part000

namespace IndexTs

theorem fillEventsStep_irrel (a b : List (String × Event)) (e : PluginEvent) :
    fillEventsStep a e = fillEventsStep b e := rfl

theorem fillEvents_eq_last :
    ∀ (es : List PluginEvent) (e : PluginEvent),
      es.getLast? = some e → fillEvents es = fillEvents [e]
  | [], _, h => by simp at h
  | [e0], e, h => by
    simp only [List.getLast?_singleton, Option.some.injEq] at h
    rw [h]
  | e0 :: e1 :: t, e, h => by
    rw [List.getLast?_cons_cons] at h
    have step : (e1 :: t).foldl fillEventsStep (fillEventsStep [] e0) =
        (e1 :: t).foldl fillEventsStep [] := by
      rw [List.foldl_cons, List.foldl_cons, fillEventsStep_irrel (fillEventsStep [] e0) [] e1]
    calc fillEvents (e0 :: e1 :: t)
        = (e1 :: t).foldl fillEventsStep (fillEventsStep [] e0) := by
          simp [fillEvents]
      _ = (e1 :: t).foldl fillEventsStep [] := step
      _ = fillEvents [e] := fillEvents_eq_last (e1 :: t) e h

theorem fillEvents_single_length (e : PluginEvent) : (fillEvents [e]).length = 1 := rfl

theorem sendToPinpoint_cons_none (env : Nat → String) (appId : String)
    (e : PluginEvent) (es : List PluginEvent) (n : Nat) :
    sendToPinpoint env appId (e :: es) n = none := by
  have hstep : sendStep env (([], n) : List (String × EventsBatch) × Nat) e = none := rfl
  simp [sendToPinpoint, batchItems, List.foldlM_cons, hstep]

end IndexTs

/-! ### Remaining shared lemmas and concrete sample inputs -/

theorem length_filterMap_uuid (es : List PluginEvent)
    (hu : ∀ e ∈ es, e.uuid.isSome) :
    (es.filterMap PluginEvent.uuid).length = es.length := by
  induction es with
  | nil => rfl
  | cons e t ih =>
    obtain ⟨u, hue⟩ := Option.isSome_iff_exists.mp (hu e (List.mem_cons_self e t))
    rw [List.filterMap_cons, hue]
    simp [ih (fun e' he' => hu e' (List.mem_cons_of_mem _ he'))]

theorem clamp_ge_one (p hi : Int) : 1 ≤ max 1 (min p hi) := le_max_left _ _

theorem clamp_le_hi {p hi : Int} (hhi : 1 ≤ hi) : max 1 (min p hi) ≤ hi :=
  max_le hhi (min_le_right _ _)

theorem clamp_of_le_one {p hi : Int} (h : p ≤ 1) : max 1 (min p hi) = 1 := by
  rw [max_def, min_def]; split_ifs <;> omega

theorem clamp_of_ge_hi {p hi : Int} (hhi : 1 ≤ hi) (h : hi ≤ p) :
    max 1 (min p hi) = hi := by
  rw [max_def, min_def]; split_ifs <;> omega

theorem clamp_of_between {p hi : Int} (h1 : 1 ≤ p) (h2 : p ≤ hi) :
    max 1 (min p hi) = p := by
  rw [max_def, min_def]; split_ifs <;> omega

namespace Part000

theorem batch_same_device (env : Nat → String) {d : String} (hne : d ≠ "")
    (es : List PluginEvent) (n : Nat)
    (hd : ∀ e ∈ es, lookupProp e.properties "$device_id" = JsValue.str d)
    (hu : ∀ e ∈ es, e.uuid.isSome)
    (hnodup : (es.filterMap PluginEvent.uuid).Nodup)
    (h : es ≠ []) :
    ∃ b, List.lookup d (batchItems env es n).1 = some b ∧
      b.Events.map Prod.fst = (es.filterMap PluginEvent.uuid).reverse := by
  cases es with
  | nil => exact absurd rfl h
  | cons e t =>
    obtain ⟨u, hue⟩ := Option.isSome_iff_exists.mp (hu e (List.mem_cons_self e t))
    have hfm : (e :: t).filterMap PluginEvent.uuid = u :: t.filterMap PluginEvent.uuid := by
      simp [List.filterMap_cons, hue]
    have hkeys1 : ((getEvents env [e] n).1).map Prod.fst = [u] := by
      rw [getEvents_single_key]; simp [hue]
    have hstep : sendStep env (([], n)) e =
        ([(d, ⟨getEndpoint e, (getEvents env [e] n).1⟩)], (getEvents env [e] n).2) := by
      rw [sendStep_device_fresh env [] n e d (hd e (List.mem_cons_self e t)) hne rfl]
      rfl
    rcases eq_or_ne t [] with rfl | ht
    · refine ⟨⟨getEndpoint e, (getEvents env [e] n).1⟩, ?_, ?_⟩
      · show List.lookup d ([e].foldl (sendStep env) ([], n)).1 = _
        rw [List.foldl_cons, hstep, List.foldl_nil]
        simp [List.lookup]
      · rw [hkeys1, hfm]
        simp
    · rw [hfm, List.nodup_cons] at hnodup
      obtain ⟨hu_nott, hnodt⟩ := hnodup
      have hb1 : List.lookup d
          [(d, (⟨getEndpoint e, (getEvents env [e] n).1⟩ : EventsBatch))] =
          some ⟨getEndpoint e, (getEvents env [e] n).1⟩ := by
        simp [List.lookup]
      have hbn1 : (((⟨getEndpoint e, (getEvents env [e] n).1⟩ :
          EventsBatch)).Events.map Prod.fst).Nodup := by
        rw [show ((⟨getEndpoint e, (getEvents env [e] n).1⟩ :
          EventsBatch)).Events = (getEvents env [e] n).1 from rfl, hkeys1]
        simp
      have hdisj1 : ∀ u' ∈ t.filterMap PluginEvent.uuid,
          u' ∉ ((⟨getEndpoint e, (getEvents env [e] n).1⟩ :
            EventsBatch)).Events.map Prod.fst := by
        intro u' hu'
        rw [show ((⟨getEndpoint e, (getEvents env [e] n).1⟩ :
          EventsBatch)).Events = (getEvents env [e] n).1 from rfl, hkeys1]
        simp only [List.mem_singleton]
        rintro rfl
        exact hu_nott hu'
      obtain ⟨b, hb, hbk⟩ := fold_same_device_events env hne t
        [(d, ⟨getEndpoint e, (getEvents env [e] n).1⟩)] ((getEvents env [e] n).2)
        ⟨getEndpoint e, (getEvents env [e] n).1⟩
        (fun e' he' => hd e' (List.mem_cons_of_mem _ he'))
        (fun e' he' => hu e' (List.mem_cons_of_mem _ he'))
        hnodt hb1 hbn1 hdisj1
      refine ⟨b, ?_, ?_⟩
      · show List.lookup d ((e :: t).foldl (sendStep env) ([], n)).1 = _
        rw [List.foldl_cons, hstep]
        exact hb
      · rw [hbk, hfm, hkeys1]
        simp

end Part000

/-- A fixed entropy stream used for concrete evaluations. -/
def envW : Nat → String := fun k => "fresh" ++ toString k

/-- A second entropy stream, distinct from `envW`. -/
def envW2 : Nat → String := fun k => "other" ++ toString k

/-- Concrete event: `pageview` with `$device_id` `d1`, uuid `u1`. -/
def evD1 : PluginEvent :=
  { event := "pageview", distinct_id := "user1"
    properties := some [("$device_id", .str "d1")]
    timestamp := some "2021-01-01T00:00:00Z", uuid := some "u1", site_url := none }

/-- Concrete event: like `evD1` but a different type, a second uuid. -/
def evD2 : PluginEvent :=
  { event := "pageleave", distinct_id := "user1"
    properties := some [("$device_id", .str "d1")]
    timestamp := some "2021-01-01T00:00:05Z", uuid := some "u2", site_url := none }

/-- Concrete event: same `$device_id` and same uuid as `evD1` but a
different event type and timestamp. -/
def evD1b : PluginEvent :=
  { event := "pageview2", distinct_id := "user1"
    properties := some [("$device_id", .str "d1")]
    timestamp := some "2021-01-01T00:00:09Z", uuid := some "u1", site_url := none }

/-- Concrete event with `$device_id` `da`. -/
def evA : PluginEvent :=
  { event := "pageview", distinct_id := "ua"
    properties := some [("$device_id", .str "da")]
    timestamp := some "t", uuid := some "wa", site_url := none }

/-- Concrete event with `$device_id` `db`. -/
def evB : PluginEvent :=
  { event := "pageview", distinct_id := "ub"
    properties := some [("$device_id", .str "db")]
    timestamp := some "t", uuid := some "wb", site_url := none }

/-- Concrete event carrying no properties at all. -/
def evN1 : PluginEvent :=
  { event := "heartbeat", distinct_id := "un1"
    properties := none, timestamp := none, uuid := none, site_url := none }

/-- A second concrete event carrying no properties. -/
def evN2 : PluginEvent :=
  { event := "debug", distinct_id := "un2"
    properties := none, timestamp := none, uuid := none, site_url := none }

/-- Concrete event whose property mapping holds the string `"x"` at key
`"a"`. -/
def evC3 : PluginEvent :=
  { event := "ev", distinct_id := "id"
    properties := some [("a", .str "x")]
    timestamp := some "t", uuid := some "u", site_url := none }

/-- First event of the spec §8.6 example. -/
def ev71 : PluginEvent :=
  { event := "pageview", distinct_id := "u7"
    properties := some [("$device_id", .str "d1"), ("$screen_width", .num 1024)]
    timestamp := none, uuid := some "u71", site_url := none }

/-- Second event of the spec §8.6 example. -/
def ev72 : PluginEvent :=
  { event := "pageview", distinct_id := "u7"
    properties := some [("$device_id", .str "d1"), ("$screen_height", .num 768)]
    timestamp := none, uuid := some "u72", site_url := none }

/-- A concrete batch item holding one event record under key `u1`. -/
def b0w : Part000.EventsBatch :=
  ⟨JsValue.obj [], [("u1", Part000.identRecord evD1 "2021-01-01T00:00:00Z")]⟩

/-! ### Claim theorems -/

/-- C1 counterexample: the claim's dispatcher in `src/index.ts` never
builds the batch-item mapping — its reduce reads `.Events` of an undefined
entry and throws on the very first event; at a single event with
`$device_id` `d1` (where the claim demands one `BatchItem` with one entry)
the reduce aborts with no mapping at all. -/
theorem c1_counterexample :
    IndexTs.sendToPinpoint envW "app1" [evD1] 0 = none := rfl

/-- C1 (amended): in the `part_000` variant, N ≥ 1 events sharing one
non-empty string `$device_id` and carrying pairwise-distinct uuids yield
exactly one `BatchItem` whose event mapping has N entries, and N events
with pairwise-distinct truthy `$device_id`s yield N `BatchItem`s; the
`index.ts` variant's reduce instead throws on every non-empty input and
never yields a mapping. -/
theorem c1_grouping_amended (env : Nat → String) (n : Nat) (es : List PluginEvent) :
    (∀ d : String, d ≠ "" →
      (∀ e ∈ es, lookupProp e.properties "$device_id" = JsValue.str d) →
      (∀ e ∈ es, e.uuid.isSome) →
      (es.filterMap PluginEvent.uuid).Nodup →
      es ≠ [] →
      ∃ b, (Part000.batchItems env es n).1.map Prod.fst = [d] ∧
        List.lookup d (Part000.batchItems env es n).1 = some b ∧
        b.Events.length = es.length) ∧
    ((∀ e ∈ es, (lookupProp e.properties "$device_id").truthy = true) →
      ((es.map (fun e => (lookupProp e.properties "$device_id").toStr)).Nodup) →
      (Part000.batchItems env es n).1.length = es.length) ∧
    (∀ (appId : String) (e : PluginEvent) (es2 : List PluginEvent) (m : Nat),
      IndexTs.sendToPinpoint env appId (e :: es2) m = none) := by
  refine ⟨?_, ?_, ?_⟩
  · intro d hne hd hu hnodup h
    obtain ⟨bE, _hbE, _hend, hkeysE⟩ := Part000.fold_same_device env hne es [] n hd h
    obtain ⟨b, hb, hbk⟩ := Part000.batch_same_device env hne es n hd hu hnodup h
    refine ⟨b, ?_, hb, ?_⟩
    · show (es.foldl (Part000.sendStep env) ([], n)).1.map Prod.fst = [d]
      rw [hkeysE]
      simp
    · have hlen : b.Events.length = (b.Events.map Prod.fst).length :=
        (List.length_map _ _).symm
      rw [hlen, hbk, List.length_reverse, length_filterMap_uuid es hu]
  · intro htr hnod
    have hkeys := Part000.fold_distinct_keys env es [] n htr hnod (by simp)
    have : (Part000.batchItems env es n).1.length =
        ((Part000.batchItems env es n).1.map Prod.fst).length :=
      (List.length_map _ _).symm
    rw [this]
    show ((es.foldl (Part000.sendStep env) ([], n)).1.map Prod.fst).length = es.length
    rw [hkeys]
    simp
  · intro appId e es2 m
    exact IndexTs.sendToPinpoint_cons_none env appId e es2 m

/-- C1 witness: two `pageview` events sharing `$device_id` `d1` with uuids
`u1`, `u2` yield one `BatchItem` holding two event entries; two events with
device ids `da`, `db` yield two `BatchItem`s; the `index.ts` dispatcher
yields nothing on a one-event list. -/
theorem c1_grouping_amended_witness :
    (∃ b, (Part000.batchItems envW [evD1, evD2] 0).1.map Prod.fst = ["d1"] ∧
      List.lookup "d1" (Part000.batchItems envW [evD1, evD2] 0).1 = some b ∧
      b.Events.length = 2) ∧
    (Part000.batchItems envW [evA, evB] 0).1.length = 2 ∧
    IndexTs.sendToPinpoint envW "app2" [evD1] 3 = none := by
  refine ⟨?_, ?_, ?_⟩
  · have h := (c1_grouping_amended envW 0 [evD1, evD2]).1 "d1" (by decide)
      (by intro e he; fin_cases he <;> rfl)
      (by intro e he; fin_cases he <;> rfl)
      (by decide) (by simp)
    simpa using h
  · have h := (c1_grouping_amended envW 0 [evA, evB]).2.1
      (by intro e he; fin_cases he <;> rfl)
      (by decide)
    simpa using h
  · exact (c1_grouping_amended envW 0 []).2.2 "app2" evD1 [] 3

/-- C2: evaluating the `index.ts` dispatcher at the failing input — a
non-empty flush of two events — shows it throwing (the reduce reads
`.Events` of the not-yet-present batch entry), contradicting the claim
that `sendToPinpoint` completes without throwing for every non-empty
list.  The `part_000` variant guards the access and handles the submission
outcome purely in the logging callback (`Part000.putEventsCallback`). -/
theorem c2_index_dispatch_throws :
    IndexTs.sendToPinpoint envW "app1" [evN1, evN2] 0 = none ∧
    (IndexTs.onFlushRun envW "app1" [evN1, evN2] 0).2 = false := ⟨rfl, rfl⟩

/-- C3: evaluating normalization at the failing input — an event whose
property mapping holds the string `"x"` at key `"a"`.  In `part_000`,
`getEvents` passes the whole event (not its properties) to `getAttribute`,
so the lookup misses and the attribute is the non-string `undefined`; in
`index.ts`, `fillEvents` JSON-stringifies every value, so the string `"x"`
becomes the quoted string `"\"x\""` instead of passing through unchanged.
Both contradict the claimed coercion rule. -/
theorem c3_attribute_eval :
    ((Part000.getEvents envW [evC3] 0).1.map
      (fun p => List.lookup "a" p.2.Attributes)) = [some JsValue.undefined] ∧
    ((IndexTs.fillEvents [evC3]).map
      (fun p => List.lookup "a" p.2.Attributes)) = [some (JsValue.str "\"x\"")] ∧
    JsValue.undefined ≠ JsValue.str "x" ∧
    JsValue.str "\"x\"" ≠ JsValue.str "x" := by
  refine ⟨rfl, rfl, fun h => JsValue.noConfusion h, fun h => ?_⟩
  injection h with h2
  exact absurd h2 (by decide)

/-- C4 counterexample: in `src/index.ts` the `onFlush` callback calls
`sendToPinpoint` unconditionally, so flushing an empty list still submits
a command (with an empty batch-item mapping) to the Pinpoint client,
contradicting the claimed no-op. -/
theorem c4_counterexample :
    (IndexTs.onFlushRun envW "app1" [] 0).1 =
      [{ ApplicationId := "app1", BatchItem := [] }] ∧
    (IndexTs.onFlushRun envW "app1" [] 0).1.length ≠ 0 := ⟨rfl, by decide⟩

/-- C4 (amended): in the `part_000` variant an empty flush makes no call
into the Pinpoint client; in the `index.ts` variant `sendToPinpoint` runs
unconditionally and an empty flush submits one command with an empty
batch-item mapping. -/
theorem c4_empty_flush_amended (env : Nat → String) (appId : String) (n : Nat) :
    Part000.onFlushCalls env appId [] n = [] ∧
    (IndexTs.onFlushRun env appId [] n).1 =
      [{ ApplicationId := appId, BatchItem := [] }] := ⟨rfl, rfl⟩

/-- C5 counterexample: `index.ts`'s `fillEvents` keys the normalized
record by the event's `distinct_id`, not by its uuid — `evD1` carries uuid
`u1` but its record is stored under `user1`. -/
theorem c5_counterexample :
    (IndexTs.fillEvents [evD1]).map Prod.fst = ["user1"] ∧
    evD1.uuid = some "u1" ∧ ("user1" : String) ≠ "u1" := ⟨rfl, rfl, by decide⟩

/-- C5 (amended): in the `part_000` variant the record is keyed by the
event's uuid when present and by a freshly generated id otherwise; in the
`index.ts` variant it is keyed by the event's `distinct_id`. -/
theorem c5_event_key_amended (env : Nat → String) (n : Nat) (e : PluginEvent) :
    ((Part000.getEvents env [e] n).1.map Prod.fst = [e.uuid.getD (env n)]) ∧
    ((IndexTs.fillEvents [e]).map Prod.fst = [e.distinct_id]) :=
  ⟨Part000.getEvents_single_key env e n, rfl⟩

/-- C6 counterexample: two events sharing `$device_id` `d1` and uuid `u1`
(`pageview` then `pageview2`): the surviving record under event key `u1`
is the EARLIER event's (`pageview`), because the merge spreads the
existing entries after the new one; the claim says the later overwrites. -/
theorem c6_counterexample :
    ((List.lookup "d1" (Part000.batchItems envW [evD1, evD1b] 0).1).map
      (fun b => (List.lookup "u1" b.Events).map (fun r => r.EventType))) =
      some (some "pageview") ∧ ("pageview" : String) ≠ "pageview2" := ⟨rfl, by decide⟩

/-- C6 (amended): when an event joins an existing `BatchItem`, the merged
event mapping is `{ ...new, ...existing }` — entries under other event
keys survive, and on a shared event key the EXISTING (earlier) record is
kept while the later event's record is discarded; only keys absent from
the existing mapping take the new event's record. -/
theorem c6_merge_amended (env : Nat → String) (acc : List (String × Part000.EventsBatch))
    (n : Nat) (e : PluginEvent) (d : String) (b : Part000.EventsBatch)
    (hd : lookupProp e.properties "$device_id" = JsValue.str d) (hne : d ≠ "")
    (hb : List.lookup d acc = some b) (hbn : (b.Events.map Prod.fst).Nodup) :
    ∃ item, List.lookup d (Part000.sendStep env (acc, n) e).1 = some item ∧
      item.Events = objMerge (Part000.getEvents env [e] n).1 b.Events ∧
      (∀ k r, List.lookup k b.Events = some r → List.lookup k item.Events = some r) ∧
      (∀ k, List.lookup k b.Events = none →
        List.lookup k item.Events = List.lookup k (Part000.getEvents env [e] n).1) := by
  rw [Part000.sendStep_device_found env acc n e d b hd hne hb]
  refine ⟨⟨Part000.getEndpoint e, objMerge (Part000.getEvents env [e] n).1 b.Events⟩,
    ?_, rfl, ?_, ?_⟩
  · show List.lookup d (objInsert acc d _) = _
    rw [lookup_objInsert]
    exact if_pos rfl
  · intro k r hkr
    show List.lookup k (objMerge (Part000.getEvents env [e] n).1 b.Events) = some r
    rw [lookup_objMerge _ _ _ hbn, hkr]
    rfl
  · intro k hk
    show List.lookup k (objMerge (Part000.getEvents env [e] n).1 b.Events) = _
    rw [lookup_objMerge _ _ _ hbn, hk]
    rfl

/-- C6 witness: merging `evD1b` into an existing batch item that already
holds an entry under `u1` keeps the existing record. -/
theorem c6_merge_amended_witness :
    ∃ item, List.lookup "d1" (Part000.sendStep envW ([("d1", b0w)], 0) evD1b).1 =
        some item ∧
      item.Events = objMerge (Part000.getEvents envW [evD1b] 0).1 b0w.Events ∧
      (∀ k r, List.lookup k b0w.Events = some r →
        List.lookup k item.Events = some r) ∧
      (∀ k, List.lookup k b0w.Events = none →
        List.lookup k item.Events = List.lookup k (Part000.getEvents envW [evD1b] 0).1) :=
  c6_merge_amended envW [("d1", b0w)] 0 evD1b "d1" b0w rfl (by decide) rfl (by decide)

/-- C7: endpoint last-write-wins in the `part_000` dispatcher — for any
non-empty run of events all carrying the same non-empty string
`$device_id` `d`, the batch mapping has exactly the key `d` and its
`BatchItem`'s endpoint equals the endpoint extracted from the LAST event
processed. -/
theorem c7_endpoint_last_write (env : Nat → String) (n : Nat) (es : List PluginEvent)
    (d : String) (hne : d ≠ "")
    (hd : ∀ e ∈ es, lookupProp e.properties "$device_id" = JsValue.str d)
    (h : es ≠ []) :
    ∃ b, List.lookup d (Part000.batchItems env es n).1 = some b ∧
      b.Endpoint = Part000.getEndpoint (es.getLast h) ∧
      (Part000.batchItems env es n).1.map Prod.fst = [d] := by
  obtain ⟨b, hb, he, hk⟩ := Part000.fold_same_device env hne es [] n hd h
  exact ⟨b, hb, he, by simpa using hk⟩

/-- C7 witness: the spec §8.6 example — two `pageview` events with
`$device_id` `d1` (the first with `$screen_width`, the second with
`$screen_height`) produce one `BatchItem` for key `d1` whose endpoint is
extracted from the second event. -/
theorem c7_endpoint_last_write_witness :
    ∃ b, List.lookup "d1" (Part000.batchItems envW [ev71, ev72] 0).1 = some b ∧
      b.Endpoint = Part000.getEndpoint ev72 ∧
      (Part000.batchItems envW [ev71, ev72] 0).1.map Prod.fst = ["d1"] := by
  obtain ⟨b, h1, h2, h3⟩ := c7_endpoint_last_write envW 0 [ev71, ev72] "d1" (by decide)
    (by intro e he; fin_cases he <;> rfl) (by simp)
  exact ⟨b, h1, h2, h3⟩

/-- C8 counterexample: a configured value above the range is clamped to
the maximum, not defaulted to the minimum — `parseInt("500")` gives 500,
and the computed limits are 100 and 60, not 1. -/
theorem c8_counterexample :
    IndexTs.uploadMegabytes "500" = 100 ∧ Part000.uploadSeconds "500" = 60 ∧
    (100 : Int) ≠ 1 ∧ (60 : Int) ≠ 1 := by
  exact ⟨by decide, by decide, by decide, by decide⟩

/-- C8 (amended): the computed size limit always lies in [1, 100] and the
computed interval in [1, 60]; a missing/non-numeric value (`parseInt`
gives `NaN`) or a parsed value ≤ 1 yields the minimum 1, a parsed value at
or above the maximum is clamped to the maximum (100 resp. 60), and an
in-range value passes through unchanged — parsed values in [1, 100] for
the size limits and in [1, 60] for the intervals. -/
theorem c8_clamping_amended (s : String) :
    (1 ≤ IndexTs.uploadMegabytes s ∧ IndexTs.uploadMegabytes s ≤ 100 ∧
     1 ≤ IndexTs.uploadSeconds s ∧ IndexTs.uploadSeconds s ≤ 60 ∧
     1 ≤ Part000.uploadKilobytes s ∧ Part000.uploadKilobytes s ≤ 100 ∧
     1 ≤ Part000.uploadSeconds s ∧ Part000.uploadSeconds s ≤ 60) ∧
    (parseIntJs s = none →
      IndexTs.uploadMegabytes s = 1 ∧ IndexTs.uploadSeconds s = 1 ∧
      Part000.uploadKilobytes s = 1 ∧ Part000.uploadSeconds s = 1) ∧
    (∀ v : Int, parseIntJs s = some v → v ≤ 1 →
      IndexTs.uploadMegabytes s = 1 ∧ IndexTs.uploadSeconds s = 1 ∧
      Part000.uploadKilobytes s = 1 ∧ Part000.uploadSeconds s = 1) ∧
    (∀ v : Int, parseIntJs s = some v → 100 ≤ v →
      IndexTs.uploadMegabytes s = 100 ∧ Part000.uploadKilobytes s = 100) ∧
    (∀ v : Int, parseIntJs s = some v → 60 ≤ v →
      IndexTs.uploadSeconds s = 60 ∧ Part000.uploadSeconds s = 60) ∧
    (∀ v : Int, parseIntJs s = some v → 1 ≤ v → v ≤ 100 →
      IndexTs.uploadMegabytes s = v ∧ Part000.uploadKilobytes s = v) ∧
    (∀ v : Int, parseIntJs s = some v → 1 ≤ v → v ≤ 60 →
      IndexTs.uploadSeconds s = v ∧ Part000.uploadSeconds s = v) := by
  simp only [IndexTs.uploadMegabytes, IndexTs.uploadSeconds,
    Part000.uploadKilobytes, Part000.uploadSeconds]
  refine ⟨⟨clamp_ge_one _ _, clamp_le_hi (by decide), clamp_ge_one _ _,
    clamp_le_hi (by decide), clamp_ge_one _ _, clamp_le_hi (by decide),
    clamp_ge_one _ _, clamp_le_hi (by decide)⟩, ?_, ?_, ?_, ?_, ?_, ?_⟩
  · intro hnone
    have hp : parseIntOrOne s = 1 := by simp [parseIntOrOne, hnone]
    rw [hp]
    exact ⟨clamp_of_between le_rfl (by decide), clamp_of_between le_rfl (by decide),
      clamp_of_between le_rfl (by decide), clamp_of_between le_rfl (by decide)⟩
  · intro v hv hle
    have hp : parseIntOrOne s ≤ 1 := by
      simp only [parseIntOrOne, hv]
      split_ifs
      · exact le_refl 1
      · exact hle
    exact ⟨clamp_of_le_one hp, clamp_of_le_one hp, clamp_of_le_one hp,
      clamp_of_le_one hp⟩
  · intro v hv h100
    have hp : parseIntOrOne s = v := by
      simp only [parseIntOrOne, hv]
      split_ifs with h0
      · omega
      · rfl
    rw [hp]
    exact ⟨clamp_of_ge_hi (by decide) h100, clamp_of_ge_hi (by decide) h100⟩
  · intro v hv h60
    have hp : parseIntOrOne s = v := by
      simp only [parseIntOrOne, hv]
      split_ifs with h0
      · omega
      · rfl
    rw [hp]
    exact ⟨clamp_of_ge_hi (by decide) h60, clamp_of_ge_hi (by decide) h60⟩
  · intro v hv h1 h100
    have hp : parseIntOrOne s = v := by
      simp only [parseIntOrOne, hv]
      split_ifs with h0
      · omega
      · rfl
    rw [hp]
    exact ⟨clamp_of_between h1 h100, clamp_of_between h1 h100⟩
  · intro v hv h1 h60
    have hp : parseIntOrOne s = v := by
      simp only [parseIntOrOne, hv]
      split_ifs with h0
      · omega
      · rfl
    rw [hp]
    exact ⟨clamp_of_between h1 h60, clamp_of_between h1 h60⟩

/-- C8 witness: a non-numeric value defaults to 1, `"500"` clamps to the
maxima, and the in-range `"80"` (size) and `"7"` (interval) pass
through. -/
theorem c8_clamping_amended_witness :
    IndexTs.uploadMegabytes "abc" = 1 ∧ IndexTs.uploadMegabytes "500" = 100 ∧
    IndexTs.uploadSeconds "500" = 60 ∧ IndexTs.uploadMegabytes "80" = 80 ∧
    Part000.uploadKilobytes "80" = 80 ∧ Part000.uploadSeconds "7" = 7 := by
  refine ⟨?_, ?_, ?_, ?_, ?_, ?_⟩
  · exact ((c8_clamping_amended "abc").2.1 (by decide)).1
  · exact ((c8_clamping_amended "500").2.2.2.1 500 (by decide) (by decide)).1
  · exact ((c8_clamping_amended "500").2.2.2.2.1 500 (by decide) (by decide)).1
  · exact ((c8_clamping_amended "80").2.2.2.2.2.1 80 (by decide) (by decide) (by decide)).1
  · exact ((c8_clamping_amended "80").2.2.2.2.2.1 80 (by decide) (by decide) (by decide)).2
  · exact ((c8_clamping_amended "7").2.2.2.2.2.2 7 (by decide) (by decide) (by decide)).2

/-- C9 (implicit): the per-event record builders return at most one entry
for every input list — both reduces REPLACE their accumulator each
iteration, so the result equals the singleton mapping of the last event
(and batching survives only because callers pass one-element lists). -/
theorem c9_single_entry (env : Nat → String) (n : Nat) (es : List PluginEvent) :
    ((Part000.getEvents env es n).1.length ≤ 1 ∧ (IndexTs.fillEvents es).length ≤ 1) ∧
    ∀ e, es.getLast? = some e →
      (∃ m, (Part000.getEvents env es n).1 = (Part000.getEvents env [e] m).1) ∧
      IndexTs.fillEvents es = IndexTs.fillEvents [e] := by
  constructor
  · cases es with
    | nil =>
      exact ⟨by simp [Part000.getEvents], by simp [IndexTs.fillEvents]⟩
    | cons e0 t =>
      have hlast : (e0 :: t).getLast? = some ((e0 :: t).getLast (by simp)) :=
        List.getLast?_eq_getLast_of_ne_nil (by simp)
      obtain ⟨m, hm⟩ := Part000.getEvents_eq_last env (e0 :: t) n _ hlast
      constructor
      · rw [hm, Part000.getEvents_single_length]
      · rw [IndexTs.fillEvents_eq_last (e0 :: t) _ hlast,
          IndexTs.fillEvents_single_length]
  · intro e he
    exact ⟨Part000.getEvents_eq_last env es n e he, IndexTs.fillEvents_eq_last es e he⟩

/-- C9 witness: over the two-event list `[evD1, evD1b]` only the last
event's record survives in both builders. -/
theorem c9_single_entry_witness :
    (∃ m, (Part000.getEvents envW [evD1, evD1b] 0).1 =
      (Part000.getEvents envW [evD1b] m).1) ∧
    IndexTs.fillEvents [evD1, evD1b] = IndexTs.fillEvents [evD1b] :=
  (c9_single_entry envW 0 [evD1, evD1b]).2 evD1b rfl

/-- C10 (implicit): the `part_000` dispatcher's batch-item construction is
deterministic under full identification — when every event carries a
non-empty string `$device_id`, a uuid and a non-empty timestamp, the
result is independent of the entropy stream (random keys, random uuids,
wall clock) and of the stream position. -/
theorem c10_deterministic (env1 env2 : Nat → String) (n1 n2 : Nat)
    (es : List PluginEvent)
    (h : ∀ e ∈ es,
      (∃ d, lookupProp e.properties "$device_id" = JsValue.str d ∧ d ≠ "") ∧
      (∃ u, e.uuid = some u) ∧ ∃ t, e.timestamp = some t ∧ t ≠ "") :
    (Part000.batchItems env1 es n1).1 = (Part000.batchItems env2 es n2).1 :=
  Part000.fold_ident_det env1 env2 es [] n1 n2 h

/-- C10 witness: two runs over `[evD1, evD2]` with different entropy
streams and different stream positions produce the same mapping. -/
theorem c10_deterministic_witness :
    (Part000.batchItems envW [evD1, evD2] 0).1 =
      (Part000.batchItems envW2 [evD1, evD2] 7).1 := by
  apply c10_deterministic
  intro e he
  fin_cases he
  · exact ⟨⟨"d1", rfl, by decide⟩, ⟨"u1", rfl⟩,
      ⟨"2021-01-01T00:00:00Z", rfl, by decide⟩⟩
  · exact ⟨⟨"d1", rfl, by decide⟩, ⟨"u2", rfl⟩,
      ⟨"2021-01-01T00:00:05Z", rfl, by decide⟩⟩

/-- Supporting fact for the coercion rule: applied to an actual property
mapping (as its own signature declares), `getAttribute` yields a string
for every present value — numbers and booleans via their string
representation, strings unchanged, and anything else via its JSON
serialisation.  The defect recorded against the normalizer is purely the
call site passing the event instead of its properties. -/
theorem getAttribute_string_of_present (props : JsObj) (k : String)
    (hne : objGet props k ≠ JsValue.undefined) :
    ∃ s, Part000.getAttribute props k = JsValue.str s := by
  unfold Part000.getAttribute
  cases h : objGet props k with
  | undefined => exact absurd h hne
  | null => exact ⟨"null", rfl⟩
  | bool b => exact ⟨_, rfl⟩
  | num n => exact ⟨_, rfl⟩
  | str s => exact ⟨s, rfl⟩
  | arr xs => exact ⟨_, rfl⟩
  | obj fs => exact ⟨_, rfl⟩
